import Mathlib

/-!
Shallow embedding of the phoenix_ts client protocol engine, checked against its
natural-language specification.

Sources embedded here:
* the wire serializer (`serializer.ts`, given as `src/unnamed/part_001`, first
  segment): `encode`, `decode`, `binaryEncode`, `binaryDecode`, `decodePush`,
  `decodeReply`, `decodeBroadcast`;
* `src/phoenix/constants.ts`: `CHANNEL_EVENTS`, `CHANNEL_STATES`;
* `src/phoenix/timer.ts`: the backoff `Timer`;
* `src/phoenix/push.ts`: the request tracker `Push`.

`channel.ts` and `socket.ts` are not among the sources (only their tests and
`constants.ts` are), so the pieces of them that the claims need — `Channel.join`,
`Channel.trigger`'s stale-join guard, `Socket.makeRef`, `Channel.replyEventName`
— are modelled from the spec, each with a doc comment starting `Modelled from
the spec:`.

Modelling conventions:
* JavaScript strings are `Str := List Nat`, their UTF-16 code units in order
  (protocol identifiers are ASCII, for which a code unit is the character's
  byte); `.length` is the list length and `charCodeAt` the list entry.
* `ArrayBuffer`s are `List Nat` of byte values.
* A JavaScript exception propagating out of a function is an `Except.error`;
  a function that returns `undefined` to its caller yields `Decoded.undefined`.
* A wire *text* frame is represented by its JSON parse: `Encoded.text (some j)`
  is a string whose `JSON.parse` gives `j`, and `Encoded.text none` is a string
  that is not valid JSON (on which `JSON.parse` throws).  `JSON.stringify` /
  `JSON.parse` are host primitives, mutually inverse on the JSON values the
  serializer emits, so the text wire is modelled at the JSON-value level.
-/

namespace PhoenixTS

/-- A JavaScript string: its UTF-16 code units in order. -/
abbrev Str := List Nat

/-- Code units of a Lean string literal (ASCII in every use below). -/
def strLit (s : String) : Str := s.toList.map Char.toNat

/-- JSON values, the parse trees of wire text frames and object payloads. -/
inductive Json where
  | null : Json
  | bool (b : Bool) : Json
  | num (n : Int) : Json
  | str (s : Str) : Json
  | arr (elems : List Json) : Json
  | obj (fields : List (Str × Json)) : Json

/- `constants.ts` `CHANNEL_EVENTS`: the reserved channel lifecycle/reply event
names. -/
namespace CHANNEL_EVENTS

def close : Str := strLit ("phx_close")

def error : Str := strLit ("phx_error")

def join : Str := strLit ("phx_join")

def reply : Str := strLit ("phx_reply")

def leave : Str := strLit ("phx_leave")

end CHANNEL_EVENTS

/- `serializer.ts` `BINARY_KINDS`: the binary frame kind tags. -/
namespace BINARY_KINDS

def push : Nat := 0

def reply : Nat := 1

def broadcast : Nat := 2

end BINARY_KINDS

/-- Serializer constant `HEADER_LENGTH`. -/
def HEADER_LENGTH : Nat := 1

/-- Serializer constant `META_LENGTH`. -/
def META_LENGTH : Nat := 4

/-- A message payload at runtime: a JSON object (`ObjectMessage`), an
`ArrayBuffer` (`BinaryMessage`), or the `{status, response}` object built by
`decodeReply` (whose `response` is an `ArrayBuffer`, so it is neither of the
first two shapes). -/
inductive Payload where
  | obj (fields : List (Str × Json)) : Payload
  | bin (bytes : List Nat) : Payload
  | reply (status : Str) (response : List Nat) : Payload

/-- A protocol `Message`/`DecodedMessage`: `{join_ref, ref, topic, event,
payload}` with nullable refs. -/
structure Message where
  join_ref : Option Str
  ref : Option Str
  topic : Str
  event : Str
  payload : Payload

/-- An encoded wire frame (`EncodedMessage`): binary frames carry their bytes;
text frames are represented by their JSON parse (`none` = invalid JSON). -/
inductive Encoded where
  | text (parsed : Option Json) : Encoded
  | binary (bytes : List Nat) : Encoded

/-- What reaches the decode callback: a well-shaped protocol message, the
`undefined` that `binaryDecode` returns when its kind switch falls through, or
— for parseable text whose shape is not the protocol's 5-element array — the
untyped record JavaScript would build by destructuring (carried opaquely; the
serializer never produces such frames, and no claim exercises this branch). -/
inductive Decoded where
  | msg (m : Message) : Decoded
  | undefined : Decoded
  | loose (j : Json) : Decoded

/-- Exceptions the decode path can raise. -/
inductive DecodeErr where
  | jsonParse : DecodeErr
  | rangeError : DecodeErr
deriving DecidableEq

/-- DataView write `view.setUint8(i, v)`: a `DataView` byte write; the value is converted to
an unsigned 8-bit integer (mod 256).  All writes in `binaryEncode` are within
the freshly allocated header buffer. -/
def setUint8 (buf : List Nat) (i v : Nat) : List Nat := buf.set i (v % 256)

/-- DataView read `view.getUint8(i)`: a `DataView` byte read; out-of-range access throws a
`RangeError`, modelled as `none`. -/
def getUint8 (buf : List Nat) (i : Nat) : Option Nat := buf.get? i

/-- ArrayBuffer slicing `buffer.slice(a, b)`: the bytes from index `a` up to
(exclusive) `b`, clamped to the buffer. -/
def bufSlice (buf : List Nat) (a b : Nat) : List Nat := (buf.take b).drop a

/-- Sequential byte writes `Array.from(s, char => view.setUint8(offset++, char.charCodeAt(0)))`:
writes the code units of `s` at consecutive offsets; returns the buffer and the
advanced offset. -/
def writeChars : List Nat → Nat → Str → List Nat × Nat
  | buf, off, [] => (buf, off)
  | buf, off, c :: cs => writeChars (setUint8 buf off c) (off + 1) cs

/-- Embeds `serializer.ts` `binaryEncode` (lines 61–92): allocates a zeroed header of
`HEADER_LENGTH + META_LENGTH + |join_ref| + |ref| + |topic| + |event|` bytes,
writes the kind tag `BINARY_KINDS.push`, the four length bytes, then the four
strings at consecutive offsets, and appends the payload bytes
(`combined.set(...)`). `join_ref?.length || 0` is the length of the string when
present and `0` when `null` (or when empty, where both sides are `0`). -/
def binaryEncode (join_ref ref : Option Str) (topic event : Str)
    (payload : List Nat) : List Nat :=
  let jrS := join_ref.getD []
  let rS := ref.getD []
  let metaLength := META_LENGTH + jrS.length + rS.length + topic.length + event.length
  let header0 := List.replicate (HEADER_LENGTH + metaLength) 0
  let b1 := setUint8 header0 0 BINARY_KINDS.push
  let b2 := setUint8 b1 1 jrS.length
  let b3 := setUint8 b2 2 rS.length
  let b4 := setUint8 b3 3 topic.length
  let b5 := setUint8 b4 4 event.length
  let w1 := writeChars b5 5 jrS
  let w2 := writeChars w1.1 w1.2 rS
  let w3 := writeChars w2.1 w2.2 topic
  let w4 := writeChars w3.1 w3.2 event
  w4.1 ++ payload

/-- UTF-16 code units of a code point (`TextDecoder` output is a JavaScript
string, so supplementary code points become surrogate pairs). -/
def cpToUnits (cp : Nat) : List Nat :=
  if cp < 65536 then [cp]
  else [55296 + (cp - 65536) / 1024, 56320 + (cp - 65536) % 1024]

/-- WHATWG UTF-8 decode loop (the behaviour of `new TextDecoder().decode`,
default non-fatal mode: malformed input becomes U+FFFD, resuming at the
offending byte).  The fuel argument is the remaining input length, so the
recursion is total; every field the protocol decodes is ASCII, where decode is
the byte-wise identity. -/
def utf8Go : Nat → List Nat → List Nat
  | 0, _ => []
  | _ + 1, [] => []
  | fuel + 1, b :: rest =>
    if b < 128 then b :: utf8Go fuel rest
    else if b < 194 then 65533 :: utf8Go fuel rest
    else if b < 224 then
      match rest with
      | [] => 65533 :: utf8Go fuel []
      | c1 :: rest1 =>
        if 128 ≤ c1 ∧ c1 < 192 then
          cpToUnits ((b - 192) * 64 + (c1 - 128)) ++ utf8Go fuel rest1
        else 65533 :: utf8Go fuel rest
    else if b < 240 then
      match rest with
      | [] => 65533 :: utf8Go fuel []
      | c1 :: rest1 =>
        let lo1 := if b = 224 then 160 else 128
        let hi1 := if b = 237 then 160 else 192
        if lo1 ≤ c1 ∧ c1 < hi1 then
          match rest1 with
          | [] => 65533 :: utf8Go fuel []
          | c2 :: rest2 =>
            if 128 ≤ c2 ∧ c2 < 192 then
              cpToUnits ((b - 224) * 4096 + (c1 - 128) * 64 + (c2 - 128)) ++
                utf8Go fuel rest2
            else 65533 :: utf8Go fuel rest1
        else 65533 :: utf8Go fuel rest
    else if b < 245 then
      match rest with
      | [] => 65533 :: utf8Go fuel []
      | c1 :: rest1 =>
        let lo1 := if b = 240 then 144 else 128
        let hi1 := if b = 244 then 144 else 192
        if lo1 ≤ c1 ∧ c1 < hi1 then
          match rest1 with
          | [] => 65533 :: utf8Go fuel []
          | c2 :: rest2 =>
            if 128 ≤ c2 ∧ c2 < 192 then
              match rest2 with
              | [] => 65533 :: utf8Go fuel []
              | c3 :: rest3 =>
                if 128 ≤ c3 ∧ c3 < 192 then
                  cpToUnits ((b - 240) * 262144 + (c1 - 128) * 4096 +
                    (c2 - 128) * 64 + (c3 - 128)) ++ utf8Go fuel rest3
                else 65533 :: utf8Go fuel rest2
            else 65533 :: utf8Go fuel rest1
        else 65533 :: utf8Go fuel rest
    else 65533 :: utf8Go fuel rest

/-- TextDecoder application `decoder.decode(bytes)` for `decoder = new TextDecoder()`. -/
def utf8Decode (bytes : List Nat) : Str := utf8Go bytes.length bytes

/-- Embeds `serializer.ts` `decodePush` (lines 108–131): reads the three length bytes
(a push frame has no ref length), slices the three strings starting at
`HEADER_LENGTH + META_LENGTH - 1`, and takes the rest as the payload; decoded
`ref` is always `null`.  A `getUint8` out of range propagates (`none`). -/
def decodePush (buffer : List Nat) : Option Message := do
  let joinRefSize ← getUint8 buffer 1
  let topicSize ← getUint8 buffer 2
  let eventSize ← getUint8 buffer 3
  let off0 := HEADER_LENGTH + META_LENGTH - 1
  let joinRef := utf8Decode (bufSlice buffer off0 (off0 + joinRefSize))
  let off1 := off0 + joinRefSize
  let topic := utf8Decode (bufSlice buffer off1 (off1 + topicSize))
  let off2 := off1 + topicSize
  let event := utf8Decode (bufSlice buffer off2 (off2 + eventSize))
  let off3 := off2 + eventSize
  let data := bufSlice buffer off3 buffer.length
  pure { join_ref := some joinRef, ref := none, topic := topic, event := event,
         payload := .bin data }

/-- Embeds `serializer.ts` `decodeReply` (lines 133–160): reads the four length bytes,
slices `join_ref`, `ref`, `topic`, `event` starting at
`HEADER_LENGTH + META_LENGTH`, takes the rest as the response bytes, forces the
decoded event to `CHANNEL_EVENTS.reply` and builds the payload
`{status: event, response: data}`. -/
def decodeReply (buffer : List Nat) : Option Message := do
  let joinRefSize ← getUint8 buffer 1
  let refSize ← getUint8 buffer 2
  let topicSize ← getUint8 buffer 3
  let eventSize ← getUint8 buffer 4
  let off0 := HEADER_LENGTH + META_LENGTH
  let joinRef := utf8Decode (bufSlice buffer off0 (off0 + joinRefSize))
  let off1 := off0 + joinRefSize
  let ref := utf8Decode (bufSlice buffer off1 (off1 + refSize))
  let off2 := off1 + refSize
  let topic := utf8Decode (bufSlice buffer off2 (off2 + topicSize))
  let off3 := off2 + topicSize
  let event := utf8Decode (bufSlice buffer off3 (off3 + eventSize))
  let off4 := off3 + eventSize
  let data := bufSlice buffer off4 buffer.length
  pure { join_ref := some joinRef, ref := some ref, topic := topic,
         event := CHANNEL_EVENTS.reply, payload := .reply event data }

/-- Embeds `serializer.ts` `decodeBroadcast` (lines 162–183): reads the two length
bytes, slices `topic` and `event` starting at `HEADER_LENGTH + 2`, takes the
rest as the payload; decoded `join_ref` and `ref` are both `null`. -/
def decodeBroadcast (buffer : List Nat) : Option Message := do
  let topicSize ← getUint8 buffer 1
  let eventSize ← getUint8 buffer 2
  let off0 := HEADER_LENGTH + 2
  let topic := utf8Decode (bufSlice buffer off0 (off0 + topicSize))
  let off1 := off0 + topicSize
  let event := utf8Decode (bufSlice buffer off1 (off1 + eventSize))
  let off2 := off1 + eventSize
  let data := bufSlice buffer off2 buffer.length
  pure { join_ref := none, ref := none, topic := topic, event := event,
         payload := .bin data }

/-- A thrown `RangeError` from the per-kind decoder propagates out of
`binaryDecode`; a returned message reaches the callback. -/
def liftDecoded : Option Message → Except DecodeErr Decoded
  | some m => .ok (.msg m)
  | none => .error .rangeError

/-- Embeds `serializer.ts` `binaryDecode` (lines 94–106): reads the kind tag with
`getUint8(0)` and dispatches on it; the switch has no default case, so an
unrecognized kind falls through and the function returns `undefined`. -/
def binaryDecode (buffer : List Nat) : Except DecodeErr Decoded :=
  match getUint8 buffer 0 with
  | none => .error .rangeError
  | some kind =>
    if kind = BINARY_KINDS.push then liftDecoded (decodePush buffer)
    else if kind = BINARY_KINDS.reply then liftDecoded (decodeReply buffer)
    else if kind = BINARY_KINDS.broadcast then liftDecoded (decodeBroadcast buffer)
    else .ok .undefined

/-- The `join_ref`/`ref` slot of the text envelope: `null` for a missing ref,
the string otherwise. -/
def metaJson : Option Str → Json
  | none => .null
  | some s => .str s

/-- Stringification `JSON.stringify` of a message payload taking the text branch of `encode`.
Only `Payload.obj` occurs there (an `ArrayBuffer` payload takes the binary
branch); a `Payload.reply` would stringify its `ArrayBuffer` member as `{}`. -/
def payloadJson : Payload → Json
  | .obj fields => .obj fields
  | .bin _ => .obj []
  | .reply st _ => .obj [(strLit ("status"), .str st), (strLit ("response"), .obj [])]

/-- Embeds `serializer.ts` `encode` (lines 41–48): a message whose payload is an
`ArrayBuffer` (`isBinaryMessage`) is binary-encoded; otherwise the 5-element
array `[join_ref, ref, topic, event, payload]` is JSON-stringified. -/
def encode (m : Message) : Encoded :=
  match m.payload with
  | .bin bytes => .binary (binaryEncode m.join_ref m.ref m.topic m.event bytes)
  | _ => .text (some (.arr [metaJson m.join_ref, metaJson m.ref, .str m.topic,
      .str m.event, payloadJson m.payload]))

/-- The text branch of `decode`:
`let [join_ref, ref, topic, event, payload] = JSON.parse(rawMsg)` followed by
`callback({join_ref, ref, topic, event, payload})`.  A parse of the protocol's
shape rebuilds the message; any other parse yields the untyped destructuring
result, carried as `Decoded.loose` (never produced by this serializer). -/
def decodeText (j : Json) : Decoded :=
  match j with
  | .arr [.null, .null, .str topic, .str event, .obj fields] =>
    .msg { join_ref := none, ref := none, topic := topic, event := event,
           payload := .obj fields }
  | .arr [.str jr, .null, .str topic, .str event, .obj fields] =>
    .msg { join_ref := some jr, ref := none, topic := topic, event := event,
           payload := .obj fields }
  | .arr [.null, .str r, .str topic, .str event, .obj fields] =>
    .msg { join_ref := none, ref := some r, topic := topic, event := event,
           payload := .obj fields }
  | .arr [.str jr, .str r, .str topic, .str event, .obj fields] =>
    .msg { join_ref := some jr, ref := some r, topic := topic, event := event,
           payload := .obj fields }
  | _ => .loose j

/-- Embeds `serializer.ts` `decode` (lines 50–57): an `ArrayBuffer` is binary-decoded;
a string is `JSON.parse`d (a parse failure throws out of `decode`) and
destructured. -/
def decode (raw : Encoded) : Except DecodeErr Decoded :=
  match raw with
  | .binary bytes => binaryDecode bytes
  | .text none => .error .jsonParse
  | .text (some j) => .ok (decodeText j)

/-- JavaScript truthiness of a nullable timer id (`if (this.timer)`,
`if (this.timeoutTimer)`): `null` and `0` are falsy.  The host mints ids from
`1`, so a stored id is always truthy. -/
def jsTruthy : Option Nat → Bool
  | none => false
  | some n => n != 0

/-- The host's timer table: the current clock, the next `setTimeout` id (minted
from 1), and the armed alarms as `(id, fire time)` pairs in arming order. -/
structure TimerHost where
  now : Nat
  nextId : Nat
  pending : List (Nat × Nat)

/-- Host primitive `clearTimeout(id)`: disarms the alarm with that id (no-op when absent). -/
def clearTimeout (h : TimerHost) (id : Nat) : TimerHost :=
  { h with pending := h.pending.filter (fun ab => ab.1 != id) }

/-- Host primitive `setTimeout(fn, delay)`: arms a fresh alarm `delay` from now and returns
its id. -/
def setTimeout (h : TimerHost) (delay : Nat) : TimerHost × Nat :=
  ({ h with nextId := h.nextId + 1,
            pending := h.pending ++ [(h.nextId, h.now + delay)] }, h.nextId)

/-- The clock advances by `d` with no alarm firing (no armed alarm is due). -/
def TimerHost.advance (h : TimerHost) (d : Nat) : TimerHost :=
  { h with now := h.now + d }

/-- Embeds `timer.ts` `Timer`: the two mutable fields.  The `callback` and `timerCalc`
closures fixed at construction are passed to the operations explicitly so that
the state stays first-order. -/
structure Timer where
  timer : Option Nat
  tries : Nat

/-- Embeds `timer.ts` `Timer.scheduleTimeout` (lines 40–52): clears the stored timeout
if truthy, then arms a new one after `timerCalc(tries + 1)` and stores its id. -/
def Timer.scheduleTimeout (timerCalc : Nat → Nat) (t : Timer) (h : TimerHost) :
    Timer × TimerHost :=
  let h1 := if jsTruthy t.timer then clearTimeout h (t.timer.getD 0) else h
  let armed := setTimeout h1 (timerCalc (t.tries + 1))
  ({ t with timer := some armed.2 }, armed.1)

/-- Embeds `timer.ts` `Timer.reset` (lines 30–35): zeroes `tries` and clears the
stored timeout if truthy (the stored id is kept). -/
def Timer.reset (t : Timer) (h : TimerHost) : Timer × TimerHost :=
  ({ t with tries := 0 },
   if jsTruthy t.timer then clearTimeout h (t.timer.getD 0) else h)

/-- The armed alarm with id `id` fires: the host drops it and runs
`() => { this.tries += 1; this.callback() }`.  The returned `Nat` is the value
of `tries` at the moment `callback()` runs — the increment happens first. -/
def Timer.fire (t : Timer) (h : TimerHost) (id : Nat) : Timer × TimerHost × Nat :=
  ({ t with tries := t.tries + 1 }, clearTimeout h id, t.tries + 1)

/-- Property access `resp.status` on a payload object (first matching key). -/
def jsonStatus (j : Json) : Option Json :=
  match j with
  | .obj fields => (fields.find? (fun kv => kv.1 == strLit ("status"))).map (·.2)
  | _ => none

/-- Embeds `push.ts` `Push`: the per-request mutable fields.  `payload` holds the
value the payload closure returns (it is re-evaluated at send time);
`receivedResp` caches the reply payload object once one is dispatched. -/
structure Push where
  event : Str
  payload : Json
  ref : Option Str
  refEvent : Option Str
  receivedResp : Option Json
  timeout : Nat
  timeoutTimer : Option Nat
  sent : Bool

/-- Embeds `push.ts` `Push.hasReceived` (lines 126–128):
`this.receivedResp && this.receivedResp.status === status` — falsy when no
reply is cached, else a strict comparison of the cached reply's `status`
property against the given status string. -/
def Push.hasReceived (p : Push) (status : Str) : Bool :=
  match p.receivedResp with
  | none => false
  | some resp =>
    match jsonStatus resp with
    | some (.str s) => s == status
    | _ => false

/-- Modelled from the spec: `channel.ts` is not among the sources.  §4.3 binds
the reply handler to "a reply-event name derived from the ref"; the channel
tests pin the derivation as the prefixed ref (`chan_reply_3` for ref `"3"`). -/
def replyEventName (ref : Str) : Str := strLit ("chan_reply_") ++ ref

/-- The observable actions `Push.send` asks its collaborators to perform. -/
inductive PushEffect where
  | clearHostTimeout (id : Nat) : PushEffect
  | channelOn (ev : Str) : PushEffect
  | armTimeout (ms : Nat) : PushEffect
  | socketPush (topic : Str) (event : Str) (payload : Json) (ref : Option Str)
      (join_ref : Option Str) : PushEffect

/-- The values `Push.send` obtains from its collaborators: the owning channel's
topic and current join ref, the ref `socket.makeRef()` will mint, and the id
`setTimeout` will return. -/
structure SendCtx where
  topic : Str
  joinRef : Option Str
  freshRef : Str
  freshTimerId : Nat

/-- Embeds `push.ts` `Push.startTimeout` (lines 106–124): cancels a truthy pending
timeout, mints a fresh ref and its reply-event name, binds the one-shot reply
handler on the channel, and arms the timeout alarm for `this.timeout` ms. -/
def Push.startTimeout (p : Push) (ctx : SendCtx) : Push × List PushEffect :=
  let cleared :=
    if jsTruthy p.timeoutTimer then
      (({ p with timeoutTimer := none } : Push),
       [PushEffect.clearHostTimeout (p.timeoutTimer.getD 0)])
    else (p, [])
  let refEvent := replyEventName ctx.freshRef
  ({ cleared.1 with ref := some ctx.freshRef, refEvent := some refEvent,
                    timeoutTimer := some ctx.freshTimerId },
   cleared.2 ++ [PushEffect.channelOn refEvent, PushEffect.armTimeout p.timeout])

/-- Embeds `push.ts` `Push.send` (lines 48–61): returns immediately when the cached
reply has status `"timeout"`; otherwise starts the timeout machinery, marks the
push sent, and transmits `{topic, event, payload(), ref, join_ref}` through the
owning channel's socket. -/
def Push.send (p : Push) (ctx : SendCtx) : Push × List PushEffect :=
  if p.hasReceived (strLit ("timeout")) then (p, [])
  else
    let started := p.startTimeout ctx
    let p1 := { started.1 with sent := true }
    (p1, started.2 ++
      [PushEffect.socketPush ctx.topic p.event p.payload p1.ref ctx.joinRef])

/-- Embeds `constants.ts` `CHANNEL_STATES`. -/
inductive ChannelState where
  | closed : ChannelState
  | errored : ChannelState
  | joined : ChannelState
  | joining : ChannelState
  | leaving : ChannelState
deriving DecidableEq

/-- Modelled from the spec: `channel.ts` is not among the sources.  The join
state of one channel instance: `state` and the `joinedOnce` latch (tests:
a fresh channel has `state = "closed"` and `joinedOnce = false`). -/
structure ChannelJoinState where
  state : ChannelState
  joinedOnce : Bool
deriving DecidableEq

/-- Modelled from the spec: `channel.ts` is not among the sources.  §4.4/§8:
`join()` "fails immediately, a fatal caller error, if `join()` is invoked more
than once for the lifetime of the channel instance", with a "tried to join
multiple times" error (tests: the thrown message matches
/^tried to join multiple times/i); otherwise the first join latches
`joinedOnce` and moves `closed` to `joining`.  The error value is the thrown
message. -/
def ChannelJoinState.join (ch : ChannelJoinState) :
    Except Str ChannelJoinState :=
  if ch.joinedOnce then .error (strLit ("tried to join multiple times"))
  else .ok { state := .joining, joinedOnce := true }

/-- Binding registered by `channel.on`: the event name and the ascending
binding ref (the callback itself is identified by the ref). -/
structure Binding where
  event : Str
  bindingRef : Nat
deriving DecidableEq

/-- Modelled from the spec: `channel.ts` is not among the sources.  The slice
of channel state `trigger` consults: the current join ref and the registered
bindings in registration order. -/
structure ChannelModel where
  joinRef : Option Str
  bindings : List Binding

/-- The reply-event name and the four lifecycle events, which `trigger` always
accepts (`constants.ts` `CHANNEL_EVENTS`). -/
def isLifecycleEvent (ev : Str) : Bool :=
  ev == CHANNEL_EVENTS.close || ev == CHANNEL_EVENTS.error ||
    ev == CHANNEL_EVENTS.join || ev == CHANNEL_EVENTS.reply ||
    ev == CHANNEL_EVENTS.leave

/-- Modelled from the spec: `channel.ts` is not among the sources.  §4.4:
`trigger(event, payload, ref, joinRef)` "ignores the event if `joinRef` is
present and does not match the channel's current join ref (stale-join guard),
except for the reply-event name and the four lifecycle events which are always
accepted; otherwise invokes, in registration order, a snapshot of matching
bindings".  The result is the snapshot of bindings whose callbacks run. -/
def ChannelModel.trigger (ch : ChannelModel) (event : Str)
    (joinRef : Option Str) : List Binding :=
  match joinRef with
  | some jr =>
    if !isLifecycleEvent event && (some jr != ch.joinRef) then []
    else ch.bindings.filter (fun b => b.event == event)
  | none => ch.bindings.filter (fun b => b.event == event)

/-- The constant `Number.MAX_SAFE_INTEGER`. -/
def maxSafeInteger : Nat := 2 ^ 53 - 1

/-- Decimal string of a counter value (`this.ref.toString()`). -/
def natDecStr (n : Nat) : Str := (Nat.toDigits 10 n).map Char.toNat

/-- Modelled from the spec: `socket.ts` is not among the sources.  §4.5
`makeRef()` "returns the decimal string of an internally incrementing counter;
wraps to "0" if the counter would exceed the safe-integer ceiling" (tests: from
`ref = 0` successive calls return `"1"`, `"2"` storing the counter; from
`ref = Number.MAX_SAFE_INTEGER + 1` the call returns `"0"` and resets the
counter to 0).  Input and first output are the stored counter. -/
def makeRef (ref : Nat) : Nat × Str :=
  let newRef := ref + 1
  if maxSafeInteger < newRef then (0, natDecStr 0)
  else (newRef, natDecStr newRef)

end PhoenixTS

namespace PhoenixTS

/-- Setting the byte right after a prefix rewrites the head of the suffix. -/
theorem set_after_prefix (pre suf : List Nat) (a v : Nat) :
    (pre ++ a :: suf).set pre.length v = pre ++ v :: suf := by
  induction pre with
  | nil => rfl
  | cons x xs ih => simp [List.set, ih]

/-- Writing a string over a zone of matching length replaces the zone with the
string's code units mod 256 and advances the offset past it. -/
theorem writeChars_fill (s : Str) : ∀ (pre mid suf : List Nat),
    mid.length = s.length →
    writeChars (pre ++ (mid ++ suf)) pre.length s =
      (pre ++ (s.map (fun c => c % 256) ++ suf), pre.length + s.length) := by
  induction s with
  | nil =>
    intro pre mid suf h
    have : mid = [] := List.length_eq_zero.mp h
    simp [this, writeChars]
  | cons c cs ih =>
    intro pre mid suf h
    match mid, h with
    | m :: ms, h =>
      have hms : ms.length = cs.length := by simpa using h
      have step : setUint8 (pre ++ m :: (ms ++ suf)) pre.length c =
          pre ++ (c % 256) :: (ms ++ suf) := by
        simp [setUint8, set_after_prefix pre (ms ++ suf) m (c % 256)]
      have hlen : (pre ++ [c % 256]).length = pre.length + 1 := by simp
      calc writeChars (pre ++ (m :: ms ++ suf)) pre.length (c :: cs)
          = writeChars ((pre ++ [c % 256]) ++ (ms ++ suf)) (pre.length + 1) cs := by
            simp [writeChars, step]
        _ = ((pre ++ [c % 256]) ++ (cs.map (fun x => x % 256) ++ suf),
              (pre ++ [c % 256]).length + cs.length) := by
            rw [← hlen]; exact ih (pre ++ [c % 256]) ms suf hms
        _ = (pre ++ ((c :: cs).map (fun x => x % 256) ++ suf),
              pre.length + (c :: cs).length) := by
            simp [hlen]
            omega

/-- Writing a concatenation is writing the parts in sequence. -/
theorem writeChars_append (s1 s2 : Str) : ∀ (buf : List Nat) (off : Nat),
    writeChars buf off (s1 ++ s2) =
      writeChars (writeChars buf off s1).1 (writeChars buf off s1).2 s2 := by
  induction s1 with
  | nil => intro buf off; simp [writeChars]
  | cons c cs ih => intro buf off; simp [writeChars, ih]

/-- Writing a string from offset 0 over a zeroed buffer of its exact length
yields the string's code units mod 256. -/
theorem writeChars_fresh (s : Str) :
    writeChars (List.replicate s.length 0) 0 s =
      (s.map (fun c => c % 256), s.length) := by
  simpa using writeChars_fill s [] (List.replicate s.length 0) [] (by simp)

/-- Layout of the encoder's output: kind tag `push`, the four length bytes,
the four strings' code units (as bytes), then the payload verbatim. -/
theorem binaryEncode_layout (jr r : Option Str) (t e : Str) (p : List Nat) :
    binaryEncode jr r t e p =
      BINARY_KINDS.push :: ((jr.getD []).length % 256) ::
        ((r.getD []).length % 256) :: (t.length % 256) :: (e.length % 256) ::
        ((jr.getD []).map (fun c => c % 256) ++
          ((r.getD []).map (fun c => c % 256) ++
            (t.map (fun c => c % 256) ++ (e.map (fun c => c % 256) ++ p)))) := by
  simp only [binaryEncode]
  generalize jr.getD [] = J
  generalize r.getD [] = R
  have hW : ∀ (buf : List Nat) (k0 k1 k2 k3 k4 : Nat),
      (setUint8 (setUint8 (setUint8 (setUint8 (setUint8 buf 0 k0) 1 k1) 2 k2)
        3 k3) 4 k4) = (writeChars buf 0 [k0, k1, k2, k3, k4]).1 := by
    intro buf k0 k1 k2 k3 k4; rfl
  have hoff : (5 : Nat) =
      (writeChars (List.replicate (HEADER_LENGTH + (META_LENGTH + J.length +
        R.length + t.length + e.length)) 0) 0
        [BINARY_KINDS.push, J.length, R.length, t.length, e.length]).2 := by
    rfl
  rw [hW, hoff, ← writeChars_append, ← writeChars_append, ← writeChars_append,
    ← writeChars_append]
  have hN : HEADER_LENGTH + (META_LENGTH + J.length + R.length + t.length +
      e.length) =
      ([BINARY_KINDS.push, J.length, R.length, t.length, e.length] ++
        (J ++ (R ++ (t ++ e)))).length := by
    simp [HEADER_LENGTH, META_LENGTH]
    omega
  rw [hN, writeChars_fresh]
  simp [BINARY_KINDS.push]

/-- Slicing exactly the zone that follows a prefix recovers the zone. -/
theorem bufSlice_zone : ∀ (pre mid suf : List Nat),
    bufSlice (pre ++ (mid ++ suf)) pre.length (pre.length + mid.length) = mid := by
  intro pre
  induction pre with
  | nil =>
    intro mid suf
    simp [bufSlice, List.take_left]
  | cons x xs ih =>
    intro mid suf
    show bufSlice (x :: (xs ++ (mid ++ suf))) (xs.length + 1)
      (xs.length + 1 + mid.length) = mid
    rw [show xs.length + 1 + mid.length = (xs.length + mid.length) + 1 by omega]
    show ((x :: (xs ++ (mid ++ suf))).take ((xs.length + mid.length) + 1)).drop
      (xs.length + 1) = mid
    rw [List.take_succ_cons, List.drop_succ_cons]
    exact ih mid suf

/-- Slicing from the end of a prefix to the end of the buffer recovers the
suffix. -/
theorem bufSlice_rest (pre suf : List Nat) :
    bufSlice (pre ++ suf) pre.length (pre ++ suf).length = suf := by
  show ((pre ++ suf).take (pre ++ suf).length).drop pre.length = suf
  rw [List.take_length]
  exact List.drop_left pre suf

/-- C1 — counterexample.  The encoder writes a ref length byte and the ref's
bytes, so the fixture message encodes to a 14-byte frame, not to the claimed
13-byte sequence `\0\x02\x01\x03\x02` ++ "10" ++ "top" ++ "ev" ++ payload,
which omits the ref "1". -/
theorem c1_counterexample :
    binaryEncode (some (strLit ("10"))) (some (strLit ("1"))) (strLit ("top"))
        (strLit ("ev")) [1] ≠
      [0, 2, 1, 3, 2] ++ strLit ("10") ++ strLit ("top") ++ strLit ("ev") ++ [1] := by
  decide

/-- C1 — amended.  Encoding the binary Message `{join_ref:"10", ref:"1",
topic:"top", event:"ev", payload: one byte 0x01}` produces exactly the bytes
`\0\x02\x01\x03\x02` followed by the ASCII bytes of "10" + "1" + "top" + "ev"
followed by the payload byte: the encoder's push layout includes a ref length
field and the ref's bytes (only the decode-side push layout has no ref field). -/
theorem c1_push_frame_bytes :
    encode (Message.mk (some (strLit ("10"))) (some (strLit ("1")))
        (strLit ("top")) (strLit ("ev")) (.bin [1])) =
      .binary ([0, 2, 1, 3, 2] ++ strLit ("10") ++ strLit ("1") ++
        strLit ("top") ++ strLit ("ev") ++ [1]) := by
  rfl

/-- C2.  For every constructible Message whose payload is a JSON object (not
raw bytes), decoding the encoding yields the original Message. -/
theorem c2_text_roundtrip (jr r : Option Str) (t e : Str)
    (fields : List (Str × Json)) :
    decode (encode (Message.mk jr r t e (.obj fields))) =
      .ok (.msg (Message.mk jr r t e (.obj fields))) := by
  cases jr <;> cases r <;> rfl

/-- C3 — counterexample.  A binary frame whose kind tag is 3 (not one of the
three recognized tags) is not rejected by a thrown error: `binaryDecode`'s
switch falls through, the function returns `undefined`, and `decode` invokes
the callback with it instead of throwing. -/
theorem c3_counterexample : decode (.binary [3]) = .ok .undefined := by rfl

/-- C3 — amended.  Text that fails to parse as JSON makes decode throw to its
caller; a binary frame whose first byte is not one of the three recognized
kind tags does not throw — it produces no decoded message, `binaryDecode`
returning `undefined` which is passed to the callback. -/
theorem c3_malformed_frames (k : Nat) (rest : List Nat)
    (hp : k ≠ BINARY_KINDS.push) (hr : k ≠ BINARY_KINDS.reply)
    (hb : k ≠ BINARY_KINDS.broadcast) :
    decode (.text none) = .error .jsonParse ∧
    decode (.binary (k :: rest)) = .ok .undefined := by
  refine ⟨rfl, ?_⟩
  simp [decode, binaryDecode, getUint8, hp, hr, hb]

/-- Witness for C3 at the concrete malformed frames: unparseable text and the
one-byte binary frame with kind tag 3. -/
theorem c3_malformed_frames_witness :
    decode (.text none) = .error .jsonParse ∧ decode (.binary [3]) = .ok .undefined :=
  c3_malformed_frames 3 [] (by decide) (by decide) (by decide)

/-- C10.  The serializer's binary encoder always writes the kind tag byte 0
(push) and both a join_ref length field and a ref length field followed by the
two strings' bytes when present; it never emits a frame with kind tag 1
(reply) or 2 (broadcast). -/
theorem c10_encode_push_only (jr r : Option Str) (t e : Str) (p : List Nat) :
    binaryEncode jr r t e p =
      BINARY_KINDS.push :: ((jr.getD []).length % 256) ::
        ((r.getD []).length % 256) :: (t.length % 256) :: (e.length % 256) ::
        ((jr.getD []).map (fun c => c % 256) ++
          ((r.getD []).map (fun c => c % 256) ++
            (t.map (fun c => c % 256) ++ (e.map (fun c => c % 256) ++ p)))) ∧
    (binaryEncode jr r t e p).get? 0 = some BINARY_KINDS.push ∧
    (binaryEncode jr r t e p).get? 0 ≠ some BINARY_KINDS.reply ∧
    (binaryEncode jr r t e p).get? 0 ≠ some BINARY_KINDS.broadcast := by
  refine ⟨binaryEncode_layout jr r t e p, ?_, ?_, ?_⟩ <;>
    simp [binaryEncode_layout jr r t e p, BINARY_KINDS.push, BINARY_KINDS.reply,
      BINARY_KINDS.broadcast]

/-- Offset-explicit form of `bufSlice_zone`. -/
theorem bufSlice_zone_at (a b : Nat) (pre mid suf : List Nat)
    (ha : pre.length = a) (hb : a + mid.length = b) :
    bufSlice (pre ++ (mid ++ suf)) a b = mid := by
  subst ha
  subst hb
  exact bufSlice_zone pre mid suf

/-- Offset-explicit form of `bufSlice_rest`. -/
theorem bufSlice_rest_at (a : Nat) (pre suf : List Nat) (ha : pre.length = a) :
    bufSlice (pre ++ suf) a (pre ++ suf).length = suf := by
  subst ha
  exact bufSlice_rest pre suf

/-- C4.  Decoding any well-formed binary reply frame (kind tag 1, the four
length bytes, then the four length-prefixed fields and the payload) forces the
decoded event to the fixed reply-event name `phx_reply` regardless of the
event string carried in the frame, decodes `join_ref` and `ref` from their
length-prefixed fields, and builds the structured payload
`{status: <event string from the frame>, response: <remaining bytes>}`. -/
theorem c4_reply_decode (j r t e p : List Nat)
    (_hj : j.length < 256) (_hr : r.length < 256) (_ht : t.length < 256)
    (_he : e.length < 256) :
    decode (.binary (BINARY_KINDS.reply :: j.length :: r.length :: t.length ::
        e.length :: (j ++ (r ++ (t ++ (e ++ p)))))) =
      .ok (.msg (Message.mk (some (utf8Decode j)) (some (utf8Decode r))
        (utf8Decode t) CHANNEL_EVENTS.reply (.reply (utf8Decode e) p))) := by
  simp only [show BINARY_KINDS.reply = 1 from rfl]
  have s1 := bufSlice_zone_at 5 (5 + j.length)
    [1, j.length, r.length, t.length, e.length] j (r ++ (t ++ (e ++ p)))
    (by simp) rfl
  have s2 := bufSlice_zone_at (5 + j.length) (5 + j.length + r.length)
    ([1, j.length, r.length, t.length, e.length] ++ j) r (t ++ (e ++ p))
    (by simp; omega) rfl
  have s3 := bufSlice_zone_at (5 + j.length + r.length)
    (5 + j.length + r.length + t.length)
    (([1, j.length, r.length, t.length, e.length] ++ j) ++ r) t (e ++ p)
    (by simp; omega) rfl
  have s4 := bufSlice_zone_at (5 + j.length + r.length + t.length)
    (5 + j.length + r.length + t.length + e.length)
    ((([1, j.length, r.length, t.length, e.length] ++ j) ++ r) ++ t) e p
    (by simp; omega) rfl
  have s5 := bufSlice_rest_at (5 + j.length + r.length + t.length + e.length)
    (((([1, j.length, r.length, t.length, e.length] ++ j) ++ r) ++ t) ++ e) p
    (by simp; omega)
  simp only [List.cons_append, List.nil_append, List.append_assoc] at s1 s2 s3 s4 s5
  simp at s5
  have g0 : getUint8 (1 :: j.length :: r.length :: t.length :: e.length ::
      (j ++ (r ++ (t ++ (e ++ p))))) 0 = some 1 := rfl
  have g1 : getUint8 (1 :: j.length :: r.length :: t.length :: e.length ::
      (j ++ (r ++ (t ++ (e ++ p))))) 1 = some j.length := rfl
  have g2 : getUint8 (1 :: j.length :: r.length :: t.length :: e.length ::
      (j ++ (r ++ (t ++ (e ++ p))))) 2 = some r.length := rfl
  have g3 : getUint8 (1 :: j.length :: r.length :: t.length :: e.length ::
      (j ++ (r ++ (t ++ (e ++ p))))) 3 = some t.length := rfl
  have g4 : getUint8 (1 :: j.length :: r.length :: t.length :: e.length ::
      (j ++ (r ++ (t ++ (e ++ p))))) 4 = some e.length := rfl
  simp [decode, binaryDecode, decodeReply, liftDecoded, g0, g1, g2, g3, g4,
    HEADER_LENGTH, META_LENGTH, Option.bind, BINARY_KINDS.push,
    BINARY_KINDS.reply, BINARY_KINDS.broadcast, s1, s2, s3, s4, s5]

/-- Witness for C4 at the repository's own reply fixture
`\x01\x03\x02\x03\x02` ++ "100" ++ "12" ++ "top" ++ "ok" ++ two payload
bytes. -/
theorem c4_reply_decode_witness :
    decode (.binary (BINARY_KINDS.reply :: 3 :: 2 :: 3 :: 2 ::
        (strLit ("100") ++ (strLit ("12") ++ (strLit ("top") ++
          (strLit ("ok") ++ [1, 1])))))) =
      .ok (.msg (Message.mk (some (utf8Decode (strLit ("100"))))
        (some (utf8Decode (strLit ("12")))) (utf8Decode (strLit ("top")))
        CHANNEL_EVENTS.reply (.reply (utf8Decode (strLit ("ok"))) [1, 1]))) :=
  c4_reply_decode (strLit ("100")) (strLit ("12")) (strLit ("top"))
    (strLit ("ok")) [1, 1] (by decide) (by decide) (by decide) (by decide)

/-- C5.  A `trigger` invocation whose `join_ref` does not equal the channel's
current join ref invokes no bound handler for a non-lifecycle event; the
reply-event name and the four lifecycle events are accepted despite the stale
join_ref (spec-modelled: `channel.ts` is not among the sources). -/
theorem c5_stale_join_guard (ch : ChannelModel) (event : Str) (jr : Str)
    (hstale : some jr ≠ ch.joinRef) :
    (isLifecycleEvent event = false → ch.trigger event (some jr) = []) ∧
    (isLifecycleEvent event = true →
      ch.trigger event (some jr) =
        ch.bindings.filter (fun b => b.event == event)) := by
  constructor
  · intro hev
    have hb : (some jr != ch.joinRef) = true := by
      simp [bne_iff_ne, hstale]
    simp [ChannelModel.trigger, hev, hb]
  · intro hev
    simp [ChannelModel.trigger, hev]

/-- Witness for C5: a channel on join ref "1" with one binding for the
non-lifecycle event "new_msg" drops a trigger tagged with join ref "2", while
a lifecycle event dispatches its (empty) matching-binding snapshot. -/
theorem c5_stale_join_guard_witness :
    ChannelModel.trigger
        (ChannelModel.mk (some (strLit ("1")))
          [Binding.mk (strLit ("new_msg")) 1])
        (strLit ("new_msg")) (some (strLit ("2"))) = [] ∧
    ChannelModel.trigger
        (ChannelModel.mk (some (strLit ("1")))
          [Binding.mk (strLit ("new_msg")) 1])
        CHANNEL_EVENTS.error (some (strLit ("2"))) =
      (ChannelModel.mk (some (strLit ("1")))
        [Binding.mk (strLit ("new_msg")) 1]).bindings.filter
        (fun b => b.event == CHANNEL_EVENTS.error) :=
  ⟨(c5_stale_join_guard (ChannelModel.mk (some (strLit ("1")))
      [Binding.mk (strLit ("new_msg")) 1]) (strLit ("new_msg"))
      (strLit ("2")) (by decide)).1 (by decide),
   (c5_stale_join_guard (ChannelModel.mk (some (strLit ("1")))
      [Binding.mk (strLit ("new_msg")) 1]) CHANNEL_EVENTS.error
      (strLit ("2")) (by decide)).2 (by decide)⟩

/-- C6.  A second `join()` after any prior `join()` on the same channel
instance fails synchronously with the "tried to join multiple times" error,
whatever the state; the first `join()` from the initial closed state moves the
channel to `joining` (spec-modelled: `channel.ts` is not among the sources). -/
theorem c6_single_join (ch ch2 : ChannelJoinState) :
    (ch.joinedOnce = true →
      ch.join = .error (strLit ("tried to join multiple times"))) ∧
    (ch.join = .ok ch2 →
      ch2.join = .error (strLit ("tried to join multiple times"))) ∧
    (ch.state = .closed ∧ ch.joinedOnce = false →
      ch.join = .ok (ChannelJoinState.mk .joining true)) := by
  refine ⟨?_, ?_, ?_⟩
  · intro h
    simp [ChannelJoinState.join, h]
  · intro h
    by_cases hj : ch.joinedOnce
    · simp [ChannelJoinState.join, hj] at h
    · simp [ChannelJoinState.join, hj] at h
      simp [ChannelJoinState.join, ← h]
  · rintro ⟨h1, h2⟩
    simp [ChannelJoinState.join, h2]

/-- Witness for C6: the first join from the fresh closed channel succeeds into
`joining`, and joining that result again throws. -/
theorem c6_single_join_witness :
    ChannelJoinState.join (ChannelJoinState.mk .closed false) =
      .ok (ChannelJoinState.mk .joining true) ∧
    ChannelJoinState.join (ChannelJoinState.mk .joining true) =
      .error (strLit ("tried to join multiple times")) :=
  ⟨(c6_single_join (ChannelJoinState.mk .closed false)
      (ChannelJoinState.mk .joining true)).2.2 ⟨rfl, rfl⟩,
   (c6_single_join (ChannelJoinState.mk .joining true)
      (ChannelJoinState.mk .joining true)).1 rfl⟩

/-- C7.  `makeRef()` increments the counter by one per call and returns its
decimal string (so "1", "2", "3", ... from a fresh counter at 0), and once the
counter exceeds the safe-integer ceiling it returns "0" with the counter reset
to 0 (spec-modelled: `socket.ts` is not among the sources). -/
theorem c7_make_ref (n : Nat) :
    (n < maxSafeInteger → makeRef n = (n + 1, natDecStr (n + 1))) ∧
    (maxSafeInteger < n → makeRef n = (0, natDecStr 0)) := by
  constructor
  · intro h
    have hlt : ¬ maxSafeInteger < n + 1 := by omega
    simp [makeRef, hlt]
  · intro h
    have hlt : maxSafeInteger < n + 1 := by omega
    simp [makeRef, hlt]

/-- Witness for C7: the first three calls from a fresh counter return "1",
"2", "3", and a counter beyond the safe-integer ceiling resets to (0, "0"). -/
theorem c7_make_ref_witness :
    makeRef 0 = (1, strLit ("1")) ∧ makeRef 1 = (2, strLit ("2")) ∧
    makeRef 2 = (3, strLit ("3")) ∧
    makeRef 9007199254740992 = (0, strLit ("0")) := by
  refine ⟨?_, ?_, ?_, ?_⟩
  · rw [(c7_make_ref 0).1 (by decide)]
    decide
  · rw [(c7_make_ref 1).1 (by decide)]
    decide
  · rw [(c7_make_ref 2).1 (by decide)]
    decide
  · rw [(c7_make_ref 9007199254740992).2 (by decide)]
    decide

/-- C9.  When a Push's cached reply has status "timeout", `send()` is a no-op:
the state (including `sent` and `ref`) is unchanged and no effect — no timeout
alarm, no reply binding, no transmission through the channel's socket — is
requested. -/
theorem c9_send_timeout_noop (p : Push) (ctx : SendCtx)
    (h : p.hasReceived (strLit ("timeout")) = true) :
    Push.send p ctx = (p, []) := by
  simp [Push.send, h]

/-- Witness for C9 at a concrete Push whose cached reply is
`{status: "timeout"}`. -/
theorem c9_send_timeout_noop_witness :
    Push.send
        (Push.mk (strLit ("new_msg")) (.obj []) none none
          (some (.obj [(strLit ("status"), .str (strLit ("timeout")))]))
          10000 none false)
        (SendCtx.mk (strLit ("topic")) (some (strLit ("1"))) (strLit ("2")) 1) =
      (Push.mk (strLit ("new_msg")) (.obj []) none none
        (some (.obj [(strLit ("status"), .str (strLit ("timeout")))]))
        10000 none false, []) :=
  c9_send_timeout_noop
    (Push.mk (strLit ("new_msg")) (.obj []) none none
      (some (.obj [(strLit ("status"), .str (strLit ("timeout")))]))
      10000 none false)
    (SendCtx.mk (strLit ("topic")) (some (strLit ("1"))) (strLit ("2")) 1)
    (by decide)

/-- C8.  Calling `scheduleTimeout()` while a fire is already pending cancels
the pending fire before arming the new one, so the timer never has two armed
alarms at once: after a second call (with `d` ms elapsed between the calls)
the host holds exactly the one new alarm, due `timerCalc(tries + 1)` after the
second call's clock, and firing it increments `tries` before the callback runs
(the callback observes the incremented count), consuming the alarm. -/
theorem c8_backoff_no_overlap (tc : Nat → Nat) (t : Timer) (h : TimerHost)
    (d : Nat) (t1 t2 : Timer) (h1 h2 : TimerHost)
    (hOwn : ∀ ab ∈ h.pending, t.timer = some ab.1 ∧ ab.1 ≠ 0)
    (hId : h.nextId ≠ 0)
    (hcall1 : Timer.scheduleTimeout tc t h = (t1, h1))
    (hcall2 : Timer.scheduleTimeout tc t1 (h1.advance d) = (t2, h2)) :
    h2.pending = [(h.nextId + 1, h.now + d + tc (t.tries + 1))] ∧
    t2.tries = t.tries ∧
    (Timer.fire t2 h2 (h.nextId + 1)).1.tries = t.tries + 1 ∧
    (Timer.fire t2 h2 (h.nextId + 1)).2.2 = t.tries + 1 ∧
    (Timer.fire t2 h2 (h.nextId + 1)).2.1.pending = [] := by
  have hp1 : (if jsTruthy t.timer then clearTimeout h (t.timer.getD 0) else h).pending
      = [] := by
    match htm : t.timer with
    | none =>
      have hnil : h.pending = [] := by
        cases hpend : h.pending with
        | nil => rfl
        | cons ab l =>
          have hmem := (hOwn ab (by simp [hpend])).1
          rw [htm] at hmem
          cases hmem
      simp [jsTruthy, hnil]
    | some k =>
      by_cases hk : k = 0
      · subst hk
        have hnil : h.pending = [] := by
          cases hpend : h.pending with
          | nil => rfl
          | cons ab l =>
            have hmem := hOwn ab (by simp [hpend])
            rw [htm] at hmem
            have : ab.1 = 0 := by
              have := hmem.1
              exact (Option.some.inj this).symm
            exact absurd this hmem.2
        simp [jsTruthy, hnil]
      · have hall : ∀ ab ∈ h.pending, ab.1 = k := by
          intro ab hab
          have := (hOwn ab hab).1
          rw [htm] at this
          exact (Option.some.inj this).symm
        have hkb : (k != 0) = true := by
          simp [hk]
        simp only [jsTruthy, hkb, if_true, clearTimeout, Option.getD_some, htm]
        rw [List.filter_eq_nil_iff]
        intro ab hab
        simp [hall ab hab]
  have hn1 : (if jsTruthy t.timer then clearTimeout h (t.timer.getD 0) else h).nextId
      = h.nextId := by
    cases jsTruthy t.timer <;> simp [clearTimeout]
  have hw1 : (if jsTruthy t.timer then clearTimeout h (t.timer.getD 0) else h).now
      = h.now := by
    cases jsTruthy t.timer <;> simp [clearTimeout]
  rw [Timer.scheduleTimeout] at hcall1
  simp only [setTimeout, Prod.mk.injEq] at hcall1
  obtain ⟨ht1, hh1⟩ := hcall1
  rw [← ht1, ← hh1] at hcall2
  simp only [TimerHost.advance, hp1, hn1, hw1] at hcall2
  rw [Timer.scheduleTimeout] at hcall2
  have hjt : jsTruthy (some h.nextId) = true := by
    simp [jsTruthy, hId]
  simp only [hjt, if_true, setTimeout, Option.getD_some, clearTimeout,
    Prod.mk.injEq] at hcall2
  have hfilter : List.filter (fun ab => ab.1 != h.nextId)
      ([] ++ [(h.nextId, h.now + tc (t.tries + 1))]) = [] := by
    simp
  rw [List.nil_append] at hfilter
  simp only [List.nil_append] at hcall2
  obtain ⟨ht2, hh2⟩ := hcall2
  rw [← hh2, ← ht2]
  simp [Timer.fire, clearTimeout, hfilter]

/-- Witness for C8 at a fresh timer (no pending alarm, tries 0) on a fresh
host, with the stepped backoff calculation from the Timer doc comment and 5 ms
between the two calls. -/
theorem c8_backoff_no_overlap_witness :
    (Timer.scheduleTimeout (fun tries => tries * 1000)
        (Timer.scheduleTimeout (fun tries => tries * 1000)
          (Timer.mk none 0) (TimerHost.mk 0 1 [])).1
        (((Timer.scheduleTimeout (fun tries => tries * 1000)
          (Timer.mk none 0) (TimerHost.mk 0 1 [])).2).advance 5)).2.pending =
      [(2, 0 + 5 + 1000)] := by
  have := c8_backoff_no_overlap (fun tries => tries * 1000)
    (Timer.mk none 0) (TimerHost.mk 0 1 []) 5
    (Timer.scheduleTimeout (fun tries => tries * 1000)
      (Timer.mk none 0) (TimerHost.mk 0 1 [])).1
    (Timer.scheduleTimeout (fun tries => tries * 1000)
      (Timer.scheduleTimeout (fun tries => tries * 1000)
        (Timer.mk none 0) (TimerHost.mk 0 1 [])).1
      (((Timer.scheduleTimeout (fun tries => tries * 1000)
        (Timer.mk none 0) (TimerHost.mk 0 1 [])).2).advance 5)).1
    (Timer.scheduleTimeout (fun tries => tries * 1000)
      (Timer.mk none 0) (TimerHost.mk 0 1 [])).2
    (Timer.scheduleTimeout (fun tries => tries * 1000)
      (Timer.scheduleTimeout (fun tries => tries * 1000)
        (Timer.mk none 0) (TimerHost.mk 0 1 [])).1
      (((Timer.scheduleTimeout (fun tries => tries * 1000)
        (Timer.mk none 0) (TimerHost.mk 0 1 [])).2).advance 5)).2
    (by intro ab hab; cases hab) (by decide) rfl rfl
  exact this.1

end PhoenixTS
